import Mathlib

/-!
Verification of the vetsa2bids volume-reorganization scripts.

The repository's scripts load 4-D NIfTI volumes (three spatial axes plus a
temporal axis), slice or reorder them along the temporal axis, flip along the
in-plane y-axis, and patch JSON sidecar records.  This file gives a shallow
embedding of those data transformations.

Modelling conventions:
* A 4-D volume is represented temporally: `Volume.frames` is the list of 3-D
  frames (`data[:, :, :, t]` for `t = 0, 1, ...`), each frame a nested list
  indexed x-major (`Frame = List (List (List Int))`, outer x, middle y,
  inner z).  All scripts slice only along the temporal axis or flip along the
  y-axis, so this layout captures every operation exactly.
* Voxel values are modelled as `Int`: no script performs arithmetic on voxel
  data, only selection and reordering, so any value type with decidable
  equality is faithful.
* The affine matrix and NIfTI header are opaque payloads that the scripts only
  copy (`img.affine`, `img.header`); they are modelled as `List (List Int)`
  and `Int` tags.  `nib.Nifti1Image(data, affine)` called without a header
  produces a fresh default header, modelled by `defaultHeader`.
* JSON sidecar records are Python dicts with unique string keys, modelled as
  association lists with dict-faithful update/remove/lookup operations.
* NumPy strided assignment (`merged[:, :, :, ::2] = a`) raises on any shape
  mismatch; fallible operations therefore return `Option`, with `none`
  modelling the raised exception.
-/

abbrev Voxel := Int

/-- A 3-D frame `data[:, :, :, t]`: outer list over x, middle over y, inner over z. -/
abbrev Frame := List (List (List Voxel))

/-- The spatial affine transform carried by a NIfTI image (opaque payload). -/
abbrev Affine := List (List Int)

/-- The NIfTI header carried by an image (opaque payload). -/
abbrev Header := Int

/-- Header produced by `nib.Nifti1Image(data, affine)` when no header is passed. -/
def defaultHeader : Header := 0

/-- A 4-D volume: list of temporal frames plus affine and header. -/
structure Volume where
  frames : List Frame
  affine : Affine
  header : Header
  deriving DecidableEq

/-- A 3-D image, as produced by saving `data[:, :, :, i]` (the temporal axis is gone). -/
structure Volume3 where
  vox : Frame
  affine : Affine
  deriving DecidableEq

/-- Elements of a list at even positions: `data[:, :, :, 0::2]` along the temporal axis. -/
def evens {α : Type} : List α → List α
  | [] => []
  | [a] => [a]
  | a :: _ :: rest => a :: evens rest

/-- Elements of a list at odd positions: `data[:, :, :, 1::2]` along the temporal axis. -/
def odds {α : Type} : List α → List α
  | [] => []
  | [_] => []
  | _ :: b :: rest => b :: odds rest

/-- Interleave two lists: the result of `out[::2] = xs; out[1::2] = ys` when the
strided-assignment shapes match (`xs.length = ys.length` or `ys.length + 1`). -/
def interleave {α : Type} : List α → List α → List α
  | [], ys => ys
  | x :: xs, [] => x :: xs
  | x :: xs, y :: ys => x :: y :: interleave xs ys

/-- Flip a frame along the y-axis: `np.flip(data, axis=1)` restricted to one frame. -/
def flipY (f : Frame) : Frame := f.map List.reverse

/-- A frame is a rectangular `nx × ny × nz` array. -/
def FrameWF (nx ny nz : ℕ) (f : Frame) : Prop :=
  f.length = nx ∧ ∀ col ∈ f, col.length = ny ∧ ∀ row ∈ col, row.length = nz

/-- A volume is a rectangular array with spatial shape `nx × ny × nz`. -/
def VolWF (nx ny nz : ℕ) (V : Volume) : Prop :=
  ∀ f ∈ V.frames, FrameWF nx ny nz f

instance (nx ny nz : ℕ) (f : Frame) : Decidable (FrameWF nx ny nz f) := by
  unfold FrameWF; infer_instance

instance (nx ny nz : ℕ) (V : Volume) : Decidable (VolWF nx ny nz V) := by
  unfold VolWF; infer_instance

/-- The spatial dimensions read off a frame (head-based, exact on rectangular data). -/
def frameDims (f : Frame) : ℕ × ℕ × ℕ :=
  (f.length, (f.headD []).length, ((f.headD []).headD []).length)

/-- The spatial dimensions of a volume, read off its first frame. -/
def volDims (V : Volume) : ℕ × ℕ × ℕ := frameDims (V.frames.headD [])

/-- The number of temporal frames, `data.shape[3]`. -/
def get_nvols (V : Volume) : ℕ := V.frames.length

theorem interleave_length {α : Type} :
    ∀ (xs ys : List α), (interleave xs ys).length = xs.length + ys.length
  | [], ys => by simp [interleave]
  | _ :: xs, [] => by simp [interleave]
  | _ :: xs, _ :: ys => by
    simp [interleave, interleave_length xs ys]; omega

theorem interleave_evens_odds {α : Type} :
    ∀ (l : List α), interleave (evens l) (odds l) = l
  | [] => rfl
  | [_] => rfl
  | a :: b :: rest => by
    simp [evens, odds, interleave, interleave_evens_odds rest]

theorem evens_length {α : Type} :
    ∀ (l : List α), (evens l).length = (l.length + 1) / 2
  | [] => by simp [evens]
  | [_] => by simp [evens]
  | _ :: _ :: rest => by
    simp [evens, evens_length rest]; omega

theorem odds_length {α : Type} :
    ∀ (l : List α), (odds l).length = l.length / 2
  | [] => by simp [odds]
  | [_] => by simp [odds]
  | _ :: _ :: rest => by
    simp [odds, odds_length rest]; omega

theorem evens_sublist {α : Type} : ∀ (l : List α), (evens l).Sublist l
  | [] => List.Sublist.refl _
  | [_] => List.Sublist.refl _
  | a :: b :: rest => by
    simpa [evens] using ((evens_sublist rest).cons b).cons₂ a

theorem odds_sublist {α : Type} : ∀ (l : List α), (odds l).Sublist l
  | [] => List.Sublist.refl _
  | [_] => List.nil_sublist _
  | a :: b :: rest => by
    simpa [odds] using ((odds_sublist rest).cons₂ b).cons a

theorem mem_interleave {α : Type} {a : α} :
    ∀ (xs ys : List α), a ∈ interleave xs ys → a ∈ xs ∨ a ∈ ys
  | [], ys, h => Or.inr (by simpa [interleave] using h)
  | x :: xs, [], h => Or.inl (by simpa [interleave] using h)
  | x :: xs, y :: ys, h => by
    simp only [interleave, List.mem_cons] at h
    rcases h with h | h | h
    · exact Or.inl (by simp [h])
    · exact Or.inr (by simp [h])
    · rcases mem_interleave xs ys h with h' | h'
      · exact Or.inl (List.mem_cons_of_mem _ h')
      · exact Or.inr (List.mem_cons_of_mem _ h')

theorem interleave_getElem {α : Type} :
    ∀ (xs ys : List α), ys.length ≤ xs.length → xs.length ≤ ys.length + 1 →
      ∀ (k : ℕ), (interleave xs ys)[2 * k]? = xs[k]? ∧
        (interleave xs ys)[2 * k + 1]? = ys[k]?
  | [], ys, h1, _, k => by
    have hys : ys = [] := List.length_eq_zero.mp (Nat.le_zero.mp (by simpa using h1))
    subst hys
    simp [interleave]
  | x :: xs, [], _, h2, k => by
    simp only [List.length_cons, List.length_nil] at h2
    have hxs : xs = [] := List.length_eq_zero.mp (by omega)
    subst hxs
    match k with
    | 0 => simp [interleave]
    | k + 1 =>
      refine ⟨?_, ?_⟩
      · have e : 2 * (k + 1) = 2 * k + 1 + 1 := by omega
        rw [e]
        simp [interleave]
      · simp [interleave]
  | x :: xs, y :: ys, h1, h2, k => by
    match k with
    | 0 => simp [interleave]
    | k + 1 =>
      simp only [List.length_cons] at h1 h2
      have h1' : ys.length ≤ xs.length := by omega
      have h2' : xs.length ≤ ys.length + 1 := by omega
      have IH := interleave_getElem xs ys h1' h2' k
      refine ⟨?_, ?_⟩
      · have e : 2 * (k + 1) = 2 * k + 1 + 1 := by omega
        rw [e]
        simpa [interleave] using IH.1
      · have e : 2 * (k + 1) + 1 = 2 * k + 1 + 1 + 1 := by omega
        rw [e]
        simpa [interleave] using IH.2

theorem flipY_flipY (f : Frame) : flipY (flipY f) = f := by
  simp [flipY, List.map_map, Function.comp]

theorem map_flipY_flipY (fs : List Frame) : (fs.map flipY).map flipY = fs := by
  rw [List.map_map]
  exact (List.map_congr_left fun a _ => flipY_flipY a).trans (List.map_id _)

theorem FrameWF_flipY {nx ny nz : ℕ} {f : Frame} (h : FrameWF nx ny nz f) :
    FrameWF nx ny nz (flipY f) := by
  obtain ⟨hlen, hcol⟩ := h
  refine ⟨by simpa [flipY] using hlen, ?_⟩
  intro col hmem
  simp only [flipY, List.mem_map] at hmem
  obtain ⟨c, hc, rfl⟩ := hmem
  obtain ⟨hclen, hrow⟩ := hcol c hc
  exact ⟨by simpa using hclen, fun row hr => hrow row (List.mem_reverse.mp hr)⟩

theorem frameDims_of_FrameWF {nx ny nz : ℕ} {f : Frame} (h : FrameWF nx ny nz f) :
    frameDims f = (nx, if nx = 0 then 0 else ny, if nx = 0 ∨ ny = 0 then 0 else nz) := by
  obtain ⟨hlen, hcol⟩ := h
  match f with
  | [] =>
    simp only [List.length_nil] at hlen
    subst hlen
    simp [frameDims]
  | c :: f' =>
    simp only [List.length_cons] at hlen
    have hnx : nx ≠ 0 := by omega
    obtain ⟨hcl, hrow⟩ := hcol c (by simp)
    match c with
    | [] =>
      simp only [List.length_nil] at hcl
      simp [frameDims, hnx, ← hcl, hlen]
    | r :: c' =>
      simp only [List.length_cons] at hcl
      have hny : ny ≠ 0 := by omega
      have hrl := hrow r (by simp)
      simp [frameDims, hnx, hny, hlen, hcl, hrl]

theorem frameDims_eq_of_FrameWF {nx ny nz : ℕ} {f g : Frame}
    (h1 : FrameWF nx ny nz f) (h2 : FrameWF nx ny nz g) : frameDims f = frameDims g := by
  rw [frameDims_of_FrameWF h1, frameDims_of_FrameWF h2]

/-! ## JSON sidecar records

Python dicts with unique string keys, as produced by `json.load`.  `setKey`
models `d[k] = v` (replace in place, else append), `eraseKey` models removal
by `d.pop(k)`, `getKey` models lookup / the `k in d` test. -/

abbrev Record := List (String × String)

/-- Lookup of a key in a record, `d[k]` / `k in d`. -/
def getKey (k : String) : Record → Option String
  | [] => none
  | p :: r => if p.1 = k then some p.2 else getKey k r

/-- Removal of a key from a record, the destructive part of `d.pop(k)`. -/
def eraseKey (k : String) : Record → Record
  | [] => []
  | p :: r => if p.1 = k then eraseKey k r else p :: eraseKey k r

/-- Dict assignment `d[k] = v`: replace the existing entry in place, else append. -/
def setKey (k v : String) : Record → Record
  | [] => [(k, v)]
  | p :: r => if p.1 = k then (k, v) :: r else p :: setKey k v r

theorem getKey_eraseKey_self (k : String) :
    ∀ (r : Record), getKey k (eraseKey k r) = none
  | [] => rfl
  | p :: r => by
    by_cases h : p.1 = k
    · simp [eraseKey, h, getKey_eraseKey_self k r]
    · simp [eraseKey, getKey, h, getKey_eraseKey_self k r]

theorem getKey_setKey_ne {k k' : String} (hne : k' ≠ k) (v : String) :
    ∀ (r : Record), getKey k (setKey k' v r) = getKey k r
  | [] => by simp [setKey, getKey, hne]
  | p :: r => by
    by_cases h : p.1 = k'
    · simp [setKey, getKey, h, hne]
    · simp [setKey, getKey, h, getKey_setKey_ne hne v r]

/-! ## Site detection

Each script branches on the JSON field `ManufacturersModelName`.  The possible
outcomes differ by script: some call `sys.exit(1)` on an unknown model
(`SiteResult.exited`), some return `None` so that only the current subject is
skipped (`SiteResult.returnedNone`). -/

inductive Site where
  | BU
  | UCSD
  deriving DecidableEq

inductive SiteResult where
  | found : Site → SiteResult
  | exited
  | returnedNone
  deriving DecidableEq

/-- Outcome of processing one subject: `sys.exit(1)`, a skip (early return), or success. -/
inductive ProcResult (α : Type) where
  | exited : ProcResult α
  | skipped : ProcResult α
  | ok : α → ProcResult α
  deriving DecidableEq

/-- True exactly on the success outcome. -/
def ProcResult.isOk {α : Type} : ProcResult α → Bool
  | .ok _ => true
  | _ => false

namespace PrepFmri

/-! Embedding of `src/4_wave2_prep-fmri.py`. -/

/-- Site detection of `4_wave2_prep-fmri.py`: unknown models print an error and
return `None` (the caller then skips the subject). -/
def get_site (m : String) : SiteResult :=
  if m = "TrioTim" then .found .BU
  else if m = "DISCOVERY MR750" then .found .UCSD
  else .returnedNone

/-- Split the alternating-pepolar run: even-indexed (0-based) frames are AP,
odd-indexed frames are PA; the AP data is then flipped along the y-axis.
Both outputs are saved with the source affine and header. -/
def split_func_run (V : Volume) : Volume × Volume :=
  let extracted_data_AP := evens V.frames
  let extracted_data_PA := odds V.frames
  (⟨extracted_data_AP.map flipY, V.affine, V.header⟩,
   ⟨extracted_data_PA, V.affine, V.header⟩)

/-- Merge AP and PA volumes back in interleaved order via the strided
assignments `merged[..., ::2] = AP` and `merged[..., 1::2] = PA`.  NumPy
accepts those assignments exactly when the PA spatial shape matches the AP
one and the slice lengths match the inputs, i.e. `lAP = ceil((lAP+lPA)/2)`
and `lPA = floor((lAP+lPA)/2)`; otherwise it raises, modelled by `none`.
Affine and header of the output come from the AP image. -/
def merge_func_files (A B : Volume) : Option Volume :=
  if volDims A = volDims B ∧
      A.frames.length = (A.frames.length + B.frames.length + 1) / 2 ∧
      B.frames.length = (A.frames.length + B.frames.length) / 2 then
    some ⟨interleave A.frames B.frames, A.affine, A.header⟩
  else none

/-- Edit of the merged bold sidecar: `func_json.pop('PhaseEncodingDirection')`
(a `KeyError`, modelled by `none`, if the key is absent), then
`func_json['TaskName'] = 'rest'`. -/
def edit_ucsd_bold_json (r : Record) : Option Record :=
  match getKey "PhaseEncodingDirection" r with
  | none => none
  | some _ => some (setKey "TaskName" "rest" (eraseKey "PhaseEncodingDirection" r))

/-- UCSD functional pipeline for one subject: reject unless the run has exactly
100 volumes, else split and re-merge (sidecar edits are tracked separately). -/
def process_ucsd_func (V : Volume) : Option (Volume × Volume × Option Volume) :=
  if get_nvols V ≠ 100 then none
  else
    let s := split_func_run V
    some (s.1, s.2, merge_func_files s.1 s.2)

end PrepFmri

namespace SdcUcsd

/-! Embedding of `src/bids_conversion/4_wave2_fmri-sdc-ucsd.py` (the parts that
differ from `4_wave2_prep-fmri.py`; its `split_func_run` and
`merge_func_files` are textually identical to the `PrepFmri` ones). -/

/-- Site detection of `4_wave2_fmri-sdc-ucsd.py`: unknown models terminate the
process (`sys.exit(1)`). -/
def get_site (m : String) : SiteResult :=
  if m = "TrioTim" then .found .BU
  else if m = "DISCOVERY MR750" then .found .UCSD
  else .exited

end SdcUcsd

namespace SplitApe

/-! Embedding of `src/bids_conversion/4_wave2_fmri-ucsd-split-ape.py`. -/

/-- Site detection of `4_wave2_fmri-ucsd-split-ape.py`: unknown models print an
error and return `None`. -/
def get_site (m : String) : SiteResult :=
  if m = "TrioTim" then .found .BU
  else if m = "DISCOVERY MR750" then .found .UCSD
  else .returnedNone

/-- Check that the run was acquired at UCSD and holds exactly 100 volumes. -/
def check_func_data (m : String) (V : Volume) : Bool :=
  if get_site m ≠ SiteResult.found Site.UCSD then false
  else if get_nvols V ≠ 100 then false
  else true

/-- Same sidecar edit as `PrepFmri.edit_ucsd_bold_json`: `pop` of
`PhaseEncodingDirection` followed by setting `TaskName`. -/
def edit_bold_json (r : Record) : Option Record :=
  match getKey "PhaseEncodingDirection" r with
  | none => none
  | some _ => some (setKey "TaskName" "rest" (eraseKey "PhaseEncodingDirection" r))

end SplitApe

namespace Wave1

/-! Embedding of `src/3_wave1_correct_dwi_data.py`. -/

/-- Site detection of `3_wave1_correct_dwi_data.py`: unknown models terminate
the process (`sys.exit(1)`). -/
def get_site (m : String) : SiteResult :=
  if m = "Avanto" then .found .BU
  else if m = "Symphony" then .found .UCSD
  else .exited

/-- Volume-count check: accept `nvols`, or `alt_nvols` when given. -/
def check_dwi_nvols (V : Volume) (nvols : ℕ) (alt_nvols : Option ℕ) : Bool :=
  if V.frames.length = nvols then true
  else
    match alt_nvols with
    | some a => V.frames.length = a
    | none => false

/-- Split the 70-volume integrated sequence into the first 35 (AP) and last 35
(PA) frames; both halves are saved with the source affine and no header. -/
def split_dwi (V : Volume) : Volume × Volume :=
  (⟨V.frames.take 35, V.affine, defaultHeader⟩,
   ⟨V.frames.drop 35, V.affine, defaultHeader⟩)

/-- Split the bvals/bvecs sidecars: per row of whitespace-separated tokens, the
first 35 go to the AP file and the remaining tokens to the PA file.  Returns
`(bvals_AP, bvals_PA, bvecs_AP, bvecs_PA)` as rows of tokens. -/
def split_bval_bvec (bvals bvecs : List (List String)) :
    List (List String) × List (List String) × List (List String) × List (List String) :=
  (bvals.map (fun row => row.take 35),
   bvals.map (fun row => row.drop 35),
   bvecs.map (fun row => row.take 35),
   bvecs.map (fun row => row.drop 35))

/-- Single-shell pipeline for one subject: site detection (fatal on unknown
model), then the 70-volume contract check, then the split. -/
def process_single_shell_data (m : String) (V : Volume) : ProcResult (Volume × Volume) :=
  match get_site m with
  | .exited => .exited
  | .returnedNone => .skipped
  | .found s =>
    if s = Site.BU ∨ s = Site.UCSD then
      if check_dwi_nvols V 70 none then .ok (split_dwi V) else .skipped
    else .skipped

end Wave1

namespace Wave2

/-! Embedding of `src/3_wave2_correct_dwi_data.py`. -/

/-- Site detection of `3_wave2_correct_dwi_data.py`: unknown models terminate
the process (`sys.exit(1)`). -/
def get_site (m : String) : SiteResult :=
  if m = "TrioTim" then .found .BU
  else if m = "DISCOVERY MR750" then .found .UCSD
  else .exited

/-- Volume-count check: accept `nvols`, or `alt_nvols` when given. -/
def check_dwi_nvols (V : Volume) (nvols : ℕ) (alt_nvols : Option ℕ) : Bool :=
  if V.frames.length = nvols then true
  else
    match alt_nvols with
    | some a => V.frames.length = a
    | none => false

/-- Save frame 0 as the AP epi and frame 1 as the PA epi (both 3-D), and
rewrite the dwi with its first frame removed; `none` models the NumPy index
error on fewer than two frames.  The epi and dwi images are saved with the
source affine and no header. -/
def split_epis (V : Volume) : Option (Volume × Volume3 × Volume3) :=
  match V.frames with
  | f0 :: f1 :: rest =>
    some (⟨f1 :: rest, V.affine, defaultHeader⟩, ⟨f1, V.affine⟩, ⟨f0, V.affine⟩)
  | _ => none

/-- Flip the AP epi along the y-axis (phase-encoding direction). -/
def flip_ap_epi (E : Volume3) : Volume3 :=
  ⟨flipY E.vox, E.affine⟩

/-- Split the 62-volume BU sequence into the first 31 (AP) and last 31 (PA)
frames. -/
def split_bu_dwi (V : Volume) : Volume × Volume :=
  (⟨V.frames.take 31, V.affine, defaultHeader⟩,
   ⟨V.frames.drop 31, V.affine, defaultHeader⟩)

/-- BU single-shell pipeline: contract check for 62 volumes, then the split. -/
def process_single_shell_data_BU (V : Volume) : Option (Volume × Volume) :=
  if check_dwi_nvols V 62 none then some (split_bu_dwi V) else none

/-- UCSD single-shell pipeline: contract check for 53 volumes, then the epi
split with the AP epi flipped. -/
def process_single_shell_data_UCSD (V : Volume) : Option (Volume × Volume3 × Volume3) :=
  if check_dwi_nvols V 53 none then
    (split_epis V).map (fun r => (r.1, r.2.1, flip_ap_epi r.2.2))
  else none

end Wave2

namespace Wave3

/-! Embedding of `src/bids_conversion/3_wave3_correct_dwi_data.py`. -/

/-- Volume-count check: accept `nvols`, or `alt_nvols` when given. -/
def check_dwi_nvols (V : Volume) (nvols : ℕ) (alt_nvols : Option ℕ) : Bool :=
  if V.frames.length = nvols then true
  else
    match alt_nvols with
    | some a => V.frames.length = a
    | none => false

/-- Save frame 0 as the AP epi and frame 1 as the PA epi (both 3-D), and
rewrite the dwi with its first frame removed; `none` models the NumPy index
error on fewer than two frames. -/
def split_epis (V : Volume) : Option (Volume × Volume3 × Volume3) :=
  match V.frames with
  | f0 :: f1 :: rest =>
    some (⟨f1 :: rest, V.affine, defaultHeader⟩, ⟨f1, V.affine⟩, ⟨f0, V.affine⟩)
  | _ => none

/-- Flip the AP epi along the y-axis (phase-encoding direction). -/
def flip_ap_epi (E : Volume3) : Volume3 :=
  ⟨flipY E.vox, E.affine⟩

/-- Multi-shell pipeline: contract check for 56 (or 54) volumes, then the epi
split with the AP epi flipped. -/
def process_multi_shell_data (V : Volume) : Option (Volume × Volume3 × Volume3) :=
  if check_dwi_nvols V 56 (some 54) then
    (split_epis V).map (fun r => (r.1, r.2.1, flip_ap_epi r.2.2))
  else none

/-- Single-shell pipeline: contract check for 53 volumes, then the epi split
with the AP epi flipped. -/
def process_single_shell_data (V : Volume) : Option (Volume × Volume3 × Volume3) :=
  if check_dwi_nvols V 53 none then
    (split_epis V).map (fun r => (r.1, r.2.1, flip_ap_epi r.2.2))
  else none

end Wave3

namespace V3

/-! Embedding of `src/3_correct_dwi_data_v3.py` (the VETSA3 variant whose
`split_epis` does not rewrite the dwi file). -/

/-- Save frame 0 as the AP epi and frame 1 as the PA epi (both 3-D); the dwi
is returned unchanged. -/
def split_epis (V : Volume) : Option (Volume × Volume3 × Volume3) :=
  match V.frames with
  | f0 :: f1 :: _ =>
    some (V, ⟨f1, V.affine⟩, ⟨f0, V.affine⟩)
  | _ => none

/-- Flip the AP epi along the y-axis (phase-encoding direction). -/
def flip_ap_epi (E : Volume3) : Volume3 :=
  ⟨flipY E.vox, E.affine⟩

end V3

theorem merge_evens_odds_eq (fr : List Frame) (af : Affine) (hd : Header)
    {nx ny nz : ℕ} (hWF : ∀ f ∈ fr, FrameWF nx ny nz f) (hEven : Even fr.length) :
    PrepFmri.merge_func_files ⟨evens fr, af, hd⟩ ⟨odds fr, af, hd⟩ = some ⟨fr, af, hd⟩ := by
  have hdims : volDims ⟨evens fr, af, hd⟩ = volDims ⟨odds fr, af, hd⟩ := by
    cases fr with
    | nil => rfl
    | cons a fr' =>
      cases fr' with
      | nil => simp [Nat.even_iff] at hEven
      | cons b rest =>
        simp only [evens, odds, volDims, Volume.frames, List.headD_cons]
        exact frameDims_eq_of_FrameWF (hWF a (by simp)) (hWF b (by simp))
  have hl1 : (evens fr).length = ((evens fr).length + (odds fr).length + 1) / 2 := by
    rw [evens_length, odds_length]; omega
  have hl2 : (odds fr).length = ((evens fr).length + (odds fr).length) / 2 := by
    rw [evens_length, odds_length]; omega
  unfold PrepFmri.merge_func_files
  rw [if_pos ⟨hdims, hl1, hl2⟩]
  simp [interleave_evens_odds]

/-- C1: composing the deinterleave step (even-indexed frames as AP, odd-indexed
frames as PA) with the reinterleave step (AP frame k to output frame 2k, PA
frame k to output frame 2k+1) reproduces the original volume exactly for every
rectangular 4-D volume of even temporal length, both with the y-axis flip
omitted and with the flip applied symmetrically on both sides. -/
theorem c1_deinterleave_reinterleave_roundtrip (nx ny nz : ℕ) (V : Volume)
    (hWF : VolWF nx ny nz V) (hEven : Even V.frames.length) :
    PrepFmri.merge_func_files ⟨evens V.frames, V.affine, V.header⟩
        ⟨odds V.frames, V.affine, V.header⟩ = some V ∧
    PrepFmri.merge_func_files
        ⟨(PrepFmri.split_func_run V).1.frames.map flipY,
         (PrepFmri.split_func_run V).1.affine, (PrepFmri.split_func_run V).1.header⟩
        (PrepFmri.split_func_run V).2 = some V := by
  obtain ⟨fr, af, hd⟩ := V
  have key := merge_evens_odds_eq fr af hd hWF hEven
  refine ⟨key, ?_⟩
  simp only [PrepFmri.split_func_run]
  rw [map_flipY_flipY]
  exact key

theorem c1_deinterleave_reinterleave_roundtrip_witness :
    PrepFmri.merge_func_files
        ⟨evens (⟨[[[[1]]], [[[2]]]], [], 0⟩ : Volume).frames,
         (⟨[[[[1]]], [[[2]]]], [], 0⟩ : Volume).affine,
         (⟨[[[[1]]], [[[2]]]], [], 0⟩ : Volume).header⟩
        ⟨odds (⟨[[[[1]]], [[[2]]]], [], 0⟩ : Volume).frames,
         (⟨[[[[1]]], [[[2]]]], [], 0⟩ : Volume).affine,
         (⟨[[[[1]]], [[[2]]]], [], 0⟩ : Volume).header⟩ =
      some ⟨[[[[1]]], [[[2]]]], [], 0⟩ ∧
    PrepFmri.merge_func_files
        ⟨(PrepFmri.split_func_run ⟨[[[[1]]], [[[2]]]], [], 0⟩).1.frames.map flipY,
         (PrepFmri.split_func_run ⟨[[[[1]]], [[[2]]]], [], 0⟩).1.affine,
         (PrepFmri.split_func_run ⟨[[[[1]]], [[[2]]]], [], 0⟩).1.header⟩
        (PrepFmri.split_func_run ⟨[[[[1]]], [[[2]]]], [], 0⟩).2 =
      some ⟨[[[[1]]], [[[2]]]], [], 0⟩ :=
  c1_deinterleave_reinterleave_roundtrip 1 1 1 ⟨[[[[1]]], [[[2]]]], [], 0⟩
    (by decide) (by decide)

/-- C2: for equally long polarity-pure volumes A and B with matching spatial
shape, the reinterleaver produces one volume of temporal length 2M in which
output frame 2k is A's frame k and output frame 2k+1 is B's frame k for every
k below M, with affine and header taken from the polarity-A input. -/
theorem c2_reinterleave_spec (A B : Volume)
    (hlen : A.frames.length = B.frames.length)
    (hdims : volDims A = volDims B) :
    ∃ C, PrepFmri.merge_func_files A B = some C ∧
      C.frames.length = 2 * A.frames.length ∧
      (∀ k, k < A.frames.length →
        C.frames[2 * k]? = A.frames[k]? ∧ C.frames[2 * k + 1]? = B.frames[k]?) ∧
      C.affine = A.affine ∧ C.header = A.header := by
  refine ⟨⟨interleave A.frames B.frames, A.affine, A.header⟩, ?_, ?_, ?_, rfl, rfl⟩
  · unfold PrepFmri.merge_func_files
    rw [if_pos ⟨hdims, by omega, by omega⟩]
  · simp only [Volume.frames, interleave_length]
    omega
  · intro k _
    exact interleave_getElem A.frames B.frames (le_of_eq hlen.symm) (by omega) k

theorem c2_reinterleave_spec_witness :
    ∃ C, PrepFmri.merge_func_files ⟨[[[[1]]]], [], 3⟩ ⟨[[[[2]]]], [], 4⟩ = some C ∧
      C.frames.length = 2 * (⟨[[[[1]]]], [], 3⟩ : Volume).frames.length ∧
      (∀ k, k < (⟨[[[[1]]]], [], 3⟩ : Volume).frames.length →
        C.frames[2 * k]? = (⟨[[[[1]]]], [], 3⟩ : Volume).frames[k]? ∧
        C.frames[2 * k + 1]? = (⟨[[[[2]]]], [], 4⟩ : Volume).frames[k]?) ∧
      C.affine = (⟨[[[[1]]]], [], 3⟩ : Volume).affine ∧
      C.header = (⟨[[[[1]]]], [], 3⟩ : Volume).header :=
  c2_reinterleave_spec ⟨[[[[1]]]], [], 3⟩ ⟨[[[[2]]]], [], 4⟩ (by decide) (by decide)

/-- C4 counterexample: two volumes whose temporal lengths differ (2 frames
versus 1 frame, same spatial shape) are merged without any error; the strided
assignments accept the off-by-one pair, so the claim that the reinterleave
step always fails on unequal lengths is false. -/
theorem c4_counterexample_merge_offbyone :
    (⟨[[], []], [], 0⟩ : Volume).frames.length ≠ (⟨[[]], [], 0⟩ : Volume).frames.length ∧
    PrepFmri.merge_func_files ⟨[[], []], [], 0⟩ ⟨[[]], [], 0⟩ =
      some ⟨[[], [], []], [], 0⟩ := by
  decide

/-- C4 amended: for inputs of matching spatial shape, the reinterleave step
fails exactly when the temporal lengths are neither equal nor off by one with
the polarity-A input longer; in particular a pair with lengths M+1 and M is
merged silently instead of being rejected. -/
theorem c4_merge_failure_amended (A B : Volume) (hdims : volDims A = volDims B) :
    PrepFmri.merge_func_files A B = none ↔
      ¬(A.frames.length = B.frames.length ∨
        A.frames.length = B.frames.length + 1) := by
  unfold PrepFmri.merge_func_files
  by_cases hc : A.frames.length = (A.frames.length + B.frames.length + 1) / 2 ∧
      B.frames.length = (A.frames.length + B.frames.length) / 2
  · rw [if_pos ⟨hdims, hc.1, hc.2⟩]
    have harith : A.frames.length = B.frames.length ∨
        A.frames.length = B.frames.length + 1 := by omega
    simp [harith]
  · rw [if_neg (fun h => hc ⟨h.2.1, h.2.2⟩)]
    have harith : ¬(A.frames.length = B.frames.length ∨
        A.frames.length = B.frames.length + 1) := by omega
    simp [harith]

theorem c4_merge_failure_amended_witness :
    (PrepFmri.merge_func_files ⟨[[], [], []], [], 0⟩ ⟨[[]], [], 0⟩ = none ↔
      ¬((⟨[[], [], []], [], 0⟩ : Volume).frames.length =
          (⟨[[]], [], 0⟩ : Volume).frames.length ∨
        (⟨[[], [], []], [], 0⟩ : Volume).frames.length =
          (⟨[[]], [], 0⟩ : Volume).frames.length + 1)) :=
  c4_merge_failure_amended ⟨[[], [], []], [], 0⟩ ⟨[[]], [], 0⟩ (by decide)

/-- C3 counterexample: a 56-frame volume is an accepted multi-shell input, but
the split step applied to it (`split_epis`) does not produce two volumes of
temporal length 28: it produces a 55-frame dwi volume together with two
single-frame 3-D epi images. -/
theorem c3_counterexample_split56 :
    Wave3.split_epis ⟨List.replicate 56 [], [], 0⟩ =
      some (⟨List.replicate 55 [], [], 0⟩, ⟨[], []⟩, ⟨[], []⟩) ∧
    (⟨List.replicate 56 [], [], 0⟩ : Volume).frames.length = 56 ∧
    (⟨List.replicate 55 [], [], 0⟩ : Volume).frames.length ≠ 28 := by
  decide

/-- C3 amended: the halving splits yield two volumes of temporal length N/2
for their accepted counts, namely N = 70 (`Wave1.split_dwi`, 35 + 35), N = 100
(`PrepFmri.split_func_run`, 50 + 50) and N = 62 (`Wave2.split_bu_dwi`,
31 + 31); the accepted N = 56 multi-shell protocol instead uses
`Wave3.split_epis`, which leaves a 55-frame dwi volume and two single-frame
epi images rather than two 28-frame volumes. -/
theorem c3_split_halves_amended :
    (∀ V : Volume, V.frames.length = 70 →
      (Wave1.split_dwi V).1.frames.length = 35 ∧
      (Wave1.split_dwi V).2.frames.length = 35) ∧
    (∀ V : Volume, V.frames.length = 100 →
      (PrepFmri.split_func_run V).1.frames.length = 50 ∧
      (PrepFmri.split_func_run V).2.frames.length = 50) ∧
    (∀ V : Volume, V.frames.length = 62 →
      (Wave2.split_bu_dwi V).1.frames.length = 31 ∧
      (Wave2.split_bu_dwi V).2.frames.length = 31) ∧
    (∀ V : Volume, V.frames.length = 56 →
      (Wave3.split_epis V).elim False (fun r => r.1.frames.length = 55)) := by
  refine ⟨fun V h => ?_, fun V h => ?_, fun V h => ?_, fun V h => ?_⟩
  · simp [Wave1.split_dwi, List.length_take, List.length_drop]
    omega
  · simp [PrepFmri.split_func_run, List.length_map, evens_length, odds_length, h]
  · simp [Wave2.split_bu_dwi, List.length_take, List.length_drop]
    omega
  · obtain ⟨fr, af, hd⟩ := V
    match fr with
    | [] => simp at h
    | [f0] => simp at h
    | f0 :: f1 :: rest =>
      simp only [Wave3.split_epis, Option.elim]
      simp only [List.length_cons] at h ⊢
      omega

theorem c3_split_halves_amended_witness :
    ((Wave1.split_dwi ⟨List.replicate 70 [], [], 0⟩).1.frames.length = 35 ∧
     (Wave1.split_dwi ⟨List.replicate 70 [], [], 0⟩).2.frames.length = 35) ∧
    ((PrepFmri.split_func_run ⟨List.replicate 100 [], [], 0⟩).1.frames.length = 50 ∧
     (PrepFmri.split_func_run ⟨List.replicate 100 [], [], 0⟩).2.frames.length = 50) ∧
    ((Wave2.split_bu_dwi ⟨List.replicate 62 [], [], 0⟩).1.frames.length = 31 ∧
     (Wave2.split_bu_dwi ⟨List.replicate 62 [], [], 0⟩).2.frames.length = 31) ∧
    ((Wave3.split_epis ⟨List.replicate 56 [], [], 0⟩).elim False
      (fun r => r.1.frames.length = 55)) :=
  ⟨c3_split_halves_amended.1 _ (by decide),
   c3_split_halves_amended.2.1 _ (by decide),
   c3_split_halves_amended.2.2.1 _ (by decide),
   c3_split_halves_amended.2.2.2 _ (by decide)⟩

/-- C5: whenever the temporal length differs from the fixed count expected for
the acquisition protocol (100 for the UCSD functional run; 70, 62, 53 and
56/54 for the DWI protocols), the corresponding pipeline step rejects the
subject before any split output is produced. -/
theorem c5_count_guard_rejects :
    (∀ V : Volume, V.frames.length ≠ 100 → PrepFmri.process_ucsd_func V = none) ∧
    (∀ (m : String) (V : Volume), V.frames.length ≠ 70 →
      (Wave1.process_single_shell_data m V).isOk = false) ∧
    (∀ V : Volume, V.frames.length ≠ 62 →
      Wave2.process_single_shell_data_BU V = none) ∧
    (∀ V : Volume, V.frames.length ≠ 53 →
      Wave2.process_single_shell_data_UCSD V = none) ∧
    (∀ V : Volume, V.frames.length ≠ 56 → V.frames.length ≠ 54 →
      Wave3.process_multi_shell_data V = none) ∧
    (∀ V : Volume, V.frames.length ≠ 53 →
      Wave3.process_single_shell_data V = none) ∧
    (∀ (m : String) (V : Volume), V.frames.length ≠ 100 →
      SplitApe.check_func_data m V = false) := by
  refine ⟨fun V h => ?_, fun m V h => ?_, fun V h => ?_, fun V h => ?_,
    fun V h56 h54 => ?_, fun V h => ?_, fun m V h => ?_⟩
  · simp [PrepFmri.process_ucsd_func, get_nvols, h]
  · have hcheck : Wave1.check_dwi_nvols V 70 none = false := by
      simp [Wave1.check_dwi_nvols, h]
    unfold Wave1.process_single_shell_data
    cases hgs : Wave1.get_site m with
    | found s => simp [hcheck, ProcResult.isOk]
    | exited => simp [ProcResult.isOk]
    | returnedNone => simp [ProcResult.isOk]
  · simp [Wave2.process_single_shell_data_BU, Wave2.check_dwi_nvols, h]
  · simp [Wave2.process_single_shell_data_UCSD, Wave2.check_dwi_nvols, h]
  · simp [Wave3.process_multi_shell_data, Wave3.check_dwi_nvols, h56, h54]
  · simp [Wave3.process_single_shell_data, Wave3.check_dwi_nvols, h]
  · simp [SplitApe.check_func_data, get_nvols, h]

theorem c5_count_guard_rejects_witness :
    PrepFmri.process_ucsd_func ⟨[[], [], []], [], 0⟩ = none ∧
    (Wave1.process_single_shell_data "Avanto" ⟨[[], [], []], [], 0⟩).isOk = false ∧
    Wave2.process_single_shell_data_BU ⟨[[], [], []], [], 0⟩ = none ∧
    Wave2.process_single_shell_data_UCSD ⟨[[], [], []], [], 0⟩ = none ∧
    Wave3.process_multi_shell_data ⟨[[], [], []], [], 0⟩ = none ∧
    Wave3.process_single_shell_data ⟨[[], [], []], [], 0⟩ = none ∧
    SplitApe.check_func_data "DISCOVERY MR750" ⟨[[], [], []], [], 0⟩ = false :=
  ⟨c5_count_guard_rejects.1 _ (by decide),
   c5_count_guard_rejects.2.1 "Avanto" _ (by decide),
   c5_count_guard_rejects.2.2.1 _ (by decide),
   c5_count_guard_rejects.2.2.2.1 _ (by decide),
   c5_count_guard_rejects.2.2.2.2.1 _ (by decide) (by decide),
   c5_count_guard_rejects.2.2.2.2.2.1 _ (by decide),
   c5_count_guard_rejects.2.2.2.2.2.2 "DISCOVERY MR750" _ (by decide)⟩

/-- C6: whenever the merged-sidecar edit step succeeds on a record, the
resulting record no longer contains the encoding-direction key: the key is
removed rather than left with a stale single-polarity value. -/
theorem c6_encoding_direction_removed (r r' : Record) :
    (PrepFmri.edit_ucsd_bold_json r = some r' →
      getKey "PhaseEncodingDirection" r' = none) ∧
    (SplitApe.edit_bold_json r = some r' →
      getKey "PhaseEncodingDirection" r' = none) := by
  refine ⟨?_, ?_⟩
  · intro h
    unfold PrepFmri.edit_ucsd_bold_json at h
    cases hg : getKey "PhaseEncodingDirection" r with
    | none => rw [hg] at h; simp at h
    | some v =>
      rw [hg] at h
      simp only [Option.some.injEq] at h
      subst h
      exact (getKey_setKey_ne (by decide) _ _).trans (getKey_eraseKey_self _ _)
  · intro h
    unfold SplitApe.edit_bold_json at h
    cases hg : getKey "PhaseEncodingDirection" r with
    | none => rw [hg] at h; simp at h
    | some v =>
      rw [hg] at h
      simp only [Option.some.injEq] at h
      subst h
      exact (getKey_setKey_ne (by decide) _ _).trans (getKey_eraseKey_self _ _)

theorem c6_encoding_direction_removed_witness :
    getKey "PhaseEncodingDirection" [("TaskName", "rest")] = none ∧
    getKey "PhaseEncodingDirection" [("TaskName", "rest")] = none :=
  ⟨(c6_encoding_direction_removed [("PhaseEncodingDirection", "j")]
      [("TaskName", "rest")]).1 (by decide),
   (c6_encoding_direction_removed [("PhaseEncodingDirection", "j")]
      [("TaskName", "rest")]).2 (by decide)⟩

/-- C7 counterexample: in `4_wave2_prep-fmri.py` an unrecognized scanner model
makes `get_site` return `None` (the subject is skipped and the pipeline
continues), not terminate the process; so the claim that site detection is
fatal in every script that branches on scanner model is false. -/
theorem c7_counterexample_unknown_model_skips :
    PrepFmri.get_site "Signa" = SiteResult.returnedNone ∧
    SiteResult.returnedNone ≠ SiteResult.exited := by
  decide

/-- C7 amended: on an unrecognized scanner model the DWI scripts
(`3_wave1_correct_dwi_data.py`, `3_wave2_correct_dwi_data.py`) and
`4_wave2_fmri-sdc-ucsd.py` terminate the process via `sys.exit(1)`, while
`4_wave2_prep-fmri.py` and `4_wave2_fmri-ucsd-split-ape.py` return `None` so
that only the current subject is skipped. -/
theorem c7_site_fatality_amended (m : String)
    (h1 : m ≠ "Avanto") (h2 : m ≠ "Symphony")
    (h3 : m ≠ "TrioTim") (h4 : m ≠ "DISCOVERY MR750") :
    Wave1.get_site m = SiteResult.exited ∧
    Wave2.get_site m = SiteResult.exited ∧
    SdcUcsd.get_site m = SiteResult.exited ∧
    PrepFmri.get_site m = SiteResult.returnedNone ∧
    SplitApe.get_site m = SiteResult.returnedNone := by
  simp [Wave1.get_site, Wave2.get_site, SdcUcsd.get_site, PrepFmri.get_site,
    SplitApe.get_site, h1, h2, h3, h4]

theorem c7_site_fatality_amended_witness :
    Wave1.get_site "GENESIS" = SiteResult.exited ∧
    Wave2.get_site "GENESIS" = SiteResult.exited ∧
    SdcUcsd.get_site "GENESIS" = SiteResult.exited ∧
    PrepFmri.get_site "GENESIS" = SiteResult.returnedNone ∧
    SplitApe.get_site "GENESIS" = SiteResult.returnedNone :=
  c7_site_fatality_amended "GENESIS" (by decide) (by decide) (by decide) (by decide)

theorem zipWith_take_drop (n : ℕ) : ∀ (l : List (List String)),
    List.zipWith (fun a b => a ++ b) (l.map (fun row => row.take n))
      (l.map (fun row => row.drop n)) = l
  | [] => rfl
  | row :: l => by
    simp [List.take_append_drop, zipWith_take_drop n l]

/-- C8: when every row of the bvals and bvecs sidecars has 70 values,
splitting at point 35 produces files whose rows each have 35 values, and
concatenating each AP row with the corresponding PA row reproduces the source
rows exactly. -/
theorem c8_bval_bvec_split (bvals bvecs : List (List String))
    (hb : ∀ row ∈ bvals, row.length = 70)
    (hv : ∀ row ∈ bvecs, row.length = 70) :
    (∀ row ∈ (Wave1.split_bval_bvec bvals bvecs).1, row.length = 35) ∧
    (∀ row ∈ (Wave1.split_bval_bvec bvals bvecs).2.1, row.length = 35) ∧
    (∀ row ∈ (Wave1.split_bval_bvec bvals bvecs).2.2.1, row.length = 35) ∧
    (∀ row ∈ (Wave1.split_bval_bvec bvals bvecs).2.2.2, row.length = 35) ∧
    List.zipWith (fun a b => a ++ b) (Wave1.split_bval_bvec bvals bvecs).1
      (Wave1.split_bval_bvec bvals bvecs).2.1 = bvals ∧
    List.zipWith (fun a b => a ++ b) (Wave1.split_bval_bvec bvals bvecs).2.2.1
      (Wave1.split_bval_bvec bvals bvecs).2.2.2 = bvecs := by
  refine ⟨?_, ?_, ?_, ?_, zipWith_take_drop 35 bvals, zipWith_take_drop 35 bvecs⟩ <;>
    intro row hr <;>
    simp only [Wave1.split_bval_bvec, List.mem_map] at hr <;>
    obtain ⟨row0, h0, rfl⟩ := hr
  · simp only [List.length_take]
    have := hb row0 h0
    omega
  · simp only [List.length_drop]
    have := hb row0 h0
    omega
  · simp only [List.length_take]
    have := hv row0 h0
    omega
  · simp only [List.length_drop]
    have := hv row0 h0
    omega

theorem c8_bval_bvec_split_witness :
    (∀ row ∈ (Wave1.split_bval_bvec [List.replicate 70 "0"]
        [List.replicate 70 "1"]).1, row.length = 35) ∧
    (∀ row ∈ (Wave1.split_bval_bvec [List.replicate 70 "0"]
        [List.replicate 70 "1"]).2.1, row.length = 35) ∧
    (∀ row ∈ (Wave1.split_bval_bvec [List.replicate 70 "0"]
        [List.replicate 70 "1"]).2.2.1, row.length = 35) ∧
    (∀ row ∈ (Wave1.split_bval_bvec [List.replicate 70 "0"]
        [List.replicate 70 "1"]).2.2.2, row.length = 35) ∧
    List.zipWith (fun a b => a ++ b)
      (Wave1.split_bval_bvec [List.replicate 70 "0"] [List.replicate 70 "1"]).1
      (Wave1.split_bval_bvec [List.replicate 70 "0"] [List.replicate 70 "1"]).2.1 =
      [List.replicate 70 "0"] ∧
    List.zipWith (fun a b => a ++ b)
      (Wave1.split_bval_bvec [List.replicate 70 "0"] [List.replicate 70 "1"]).2.2.1
      (Wave1.split_bval_bvec [List.replicate 70 "0"] [List.replicate 70 "1"]).2.2.2 =
      [List.replicate 70 "1"] :=
  c8_bval_bvec_split [List.replicate 70 "0"] [List.replicate 70 "1"]
    (by decide) (by decide)

/-- C9: every derived volume of the deinterleave, reinterleave, flip and epi
split steps keeps the affine and the three spatial dimensions of its source
volume; only the temporal length and frame order change. -/
theorem c9_affine_spatial_invariant (nx ny nz : ℕ) (V A B : Volume) (E : Volume3)
    (hV : VolWF nx ny nz V) (hA : VolWF nx ny nz A) (hB : VolWF nx ny nz B)
    (hE : FrameWF nx ny nz E.vox) :
    (VolWF nx ny nz (PrepFmri.split_func_run V).1 ∧
      (PrepFmri.split_func_run V).1.affine = V.affine) ∧
    (VolWF nx ny nz (PrepFmri.split_func_run V).2 ∧
      (PrepFmri.split_func_run V).2.affine = V.affine) ∧
    ((PrepFmri.merge_func_files A B).elim True
      (fun C => VolWF nx ny nz C ∧ C.affine = A.affine)) ∧
    (FrameWF nx ny nz (V3.flip_ap_epi E).vox ∧
      (V3.flip_ap_epi E).affine = E.affine) ∧
    ((Wave3.split_epis V).elim True (fun r =>
      (VolWF nx ny nz r.1 ∧ r.1.affine = V.affine) ∧
      (FrameWF nx ny nz r.2.1.vox ∧ r.2.1.affine = V.affine) ∧
      (FrameWF nx ny nz r.2.2.vox ∧ r.2.2.affine = V.affine))) := by
  refine ⟨⟨?_, rfl⟩, ⟨?_, rfl⟩, ?_, ⟨FrameWF_flipY hE, rfl⟩, ?_⟩
  · intro f hf
    simp only [PrepFmri.split_func_run, List.mem_map] at hf
    obtain ⟨g, hg, rfl⟩ := hf
    exact FrameWF_flipY (hV g ((evens_sublist V.frames).subset hg))
  · intro f hf
    simp only [PrepFmri.split_func_run] at hf
    exact hV f ((odds_sublist V.frames).subset hf)
  · unfold PrepFmri.merge_func_files
    split
    · exact ⟨fun f hf => ((mem_interleave _ _ hf).elim (hA f) (hB f)), rfl⟩
    · trivial
  · obtain ⟨fr, af, hd⟩ := V
    match fr with
    | [] => trivial
    | [f0] => trivial
    | f0 :: f1 :: rest =>
      refine ⟨⟨fun f hf => hV f (List.mem_cons_of_mem f0 hf), rfl⟩,
        ⟨hV f1 (by simp), rfl⟩, ⟨hV f0 (by simp), rfl⟩⟩

theorem c9_affine_spatial_invariant_witness :
    (VolWF 1 1 1 (PrepFmri.split_func_run ⟨[[[[3]]], [[[4]]]], [], 0⟩).1 ∧
      (PrepFmri.split_func_run ⟨[[[[3]]], [[[4]]]], [], 0⟩).1.affine =
        (⟨[[[[3]]], [[[4]]]], [], 0⟩ : Volume).affine) ∧
    (VolWF 1 1 1 (PrepFmri.split_func_run ⟨[[[[3]]], [[[4]]]], [], 0⟩).2 ∧
      (PrepFmri.split_func_run ⟨[[[[3]]], [[[4]]]], [], 0⟩).2.affine =
        (⟨[[[[3]]], [[[4]]]], [], 0⟩ : Volume).affine) ∧
    ((PrepFmri.merge_func_files ⟨[[[[1]]]], [], 0⟩ ⟨[[[[2]]]], [], 0⟩).elim True
      (fun C => VolWF 1 1 1 C ∧ C.affine = (⟨[[[[1]]]], [], 0⟩ : Volume).affine)) ∧
    (FrameWF 1 1 1 (V3.flip_ap_epi ⟨[[[7]]], []⟩).vox ∧
      (V3.flip_ap_epi ⟨[[[7]]], []⟩).affine = (⟨[[[7]]], []⟩ : Volume3).affine) ∧
    ((Wave3.split_epis ⟨[[[[3]]], [[[4]]]], [], 0⟩).elim True (fun r =>
      (VolWF 1 1 1 r.1 ∧ r.1.affine = (⟨[[[[3]]], [[[4]]]], [], 0⟩ : Volume).affine) ∧
      (FrameWF 1 1 1 r.2.1.vox ∧
        r.2.1.affine = (⟨[[[[3]]], [[[4]]]], [], 0⟩ : Volume).affine) ∧
      (FrameWF 1 1 1 r.2.2.vox ∧
        r.2.2.affine = (⟨[[[[3]]], [[[4]]]], [], 0⟩ : Volume).affine))) :=
  c9_affine_spatial_invariant 1 1 1 ⟨[[[[3]]], [[[4]]]], [], 0⟩ ⟨[[[[1]]]], [], 0⟩
    ⟨[[[[2]]]], [], 0⟩ ⟨[[[7]]], []⟩ (by decide) (by decide) (by decide) (by decide)

/-- C10: the merged-sidecar edit step fails (the key removal has no default)
on every record that lacks the encoding-direction key, so re-running the UCSD
branch on an already-processed sidecar fails instead of being a no-op. -/
theorem c10_missing_key_fails (r : Record)
    (h : getKey "PhaseEncodingDirection" r = none) :
    PrepFmri.edit_ucsd_bold_json r = none ∧ SplitApe.edit_bold_json r = none := by
  unfold PrepFmri.edit_ucsd_bold_json SplitApe.edit_bold_json
  rw [h]
  exact ⟨rfl, rfl⟩

theorem c10_missing_key_fails_witness :
    PrepFmri.edit_ucsd_bold_json [("TaskName", "rest")] = none ∧
    SplitApe.edit_bold_json [("TaskName", "rest")] = none :=
  c10_missing_key_fails [("TaskName", "rest")] (by decide)
